import Mathlib

/-!
Shallow embedding of the gitea provider adapter (package `gitea` of
go-git-providers): the client wrapper `giteaClientImpl` together with the
pagination driver, the HTTP-error translator and the validation contracts it
relies on, plus `PullRequestClient`. Remote SDK calls (`*gitea.Client`
methods) are external collaborators; each embedded accessor takes the remote
behaviour it consumes as an explicit argument (a function or the finite list
of fetch results for pages 1, 2, ...).

Machine-level Go details that the verified properties do not touch (JSON
marshalling, HTTP transport, struct fields the code never reads) are elided;
mutation of the caller-owned accumulator slice by the page callback is
rendered as explicit state passing.
-/

namespace Gitea

/-- A response-metadata object (`*gitea.Response`): the adapter only ever
inspects its HTTP status code. `Option Response` renders the nilable Go
pointer. -/
structure Response where
  statusCode : Nat
  deriving DecidableEq, Repr

/-- Raw errors coming out of the gitea SDK are opaque to the adapter except
for their message text; they are rendered by their message. -/
abbrev RemoteErr := String

/-- Errors the adapter can return. `errNotFound` and
`errDestructiveCallDisallowed` are the identity-comparable sentinels of the
`gitprovider` package; `validationError` is a structural validation failure
naming the object kind and missing field; `providerFailure` is the generic
wrapping the translator applies to other remote errors (original message
preserved); `remote` is an UNtranslated raw SDK error passed through as-is;
`wrap` renders Go's `fmt.Errorf("...: %w", err)`. -/
inductive GiteaError where
  | errNotFound : GiteaError
  | errDestructiveCallDisallowed : GiteaError
  | validationError (objKind field : String) : GiteaError
  | providerFailure (msg : String) : GiteaError
  | remote (msg : String) : GiteaError
  | wrap (msg : String) (underlying : GiteaError) : GiteaError
  deriving DecidableEq, Repr

/-- Go's `errors.Is`: unwraps `wrap` layers and compares by identity. -/
def errorIs : GiteaError → GiteaError → Bool
  | .wrap _ e, target => errorIs e target
  | e, target => e == target

/-- Modelled from the spec: `handleHTTPError` is code of this repository not
under `src/` (spec §4.1). Given response metadata (may be nil) and an error
(may be nil): nil error passes through as nil; a present response with
HTTP status 404 yields the `ErrNotFound` sentinel regardless of the error
text; every other non-nil error is wrapped as a generic provider failure
with its original message preserved (also when no response exists). -/
def handleHTTPError (res : Option Response) (err : Option RemoteErr) : Option GiteaError :=
  match err with
  | none => none
  | some msg =>
    match res with
    | some r => if r.statusCode = 404 then some .errNotFound else some (.providerFailure msg)
    | none => some (.providerFailure msg)

/-- The result of one remote page fetch: the items of this page, the response
metadata, and the error, exactly the triple the `*gitea.Client` list methods
return. -/
structure FetchResult (α : Type) where
  objs : List α
  resp : Option Response
  err : Option RemoteErr
  deriving DecidableEq, Repr

/-- The page callback every `List*` accessor in this file passes to
`allPages` (embedded from `ListOrgs`, `ListOrgTeams`, `ListOrgRepos`,
`ListUserRepos`, `ListKeys`, which all use the same closure shape): given
this page's fetch result and the caller-owned accumulator, if the page is
non-empty the callback appends and hands back `(resp, err)`; if the page is
empty it hands back `(nil, nil)` — note that this drops `err` when the
erroring fetch also returned zero items. -/
def listCallback (fr : FetchResult α) (acc : List α) :
    List α × Option Response × Option RemoteErr :=
  if fr.objs.length > 0 then (acc ++ fr.objs, fr.resp, fr.err)
  else (acc, none, none)

/-- Modelled from the spec: the Pagination Driver `allPages` is code of this
repository not under `src/` (spec §4.2). Starting at page 1 it invokes the
callback; on a callback error it stops at once with the translated error; on
`(nil, nil)` it stops successfully; otherwise it bumps the page number and
repeats. The remote's pages 1..n are given as the list `pages`; every fetch
past the end of `pages` returns the empty page with no error, on which every
callback in this file hands back `(nil, nil)`, so the driver stops there
(rendering the spec's premise that an eventually-empty remote terminates the
loop). The returned `Nat` counts the fetches performed. -/
def allPages (callback : FetchResult α → List α → List α × Option Response × Option RemoteErr) :
    List (FetchResult α) → List α → List α × Option GiteaError × Nat
  | [], acc =>
    let (acc', resp, err) := callback ⟨[], none, none⟩ acc
    match err with
    | some e => (acc', handleHTTPError resp (some e), 1)
    | none => (acc', none, 1)
  | fr :: rest, acc =>
    let (acc', resp, err) := callback fr acc
    match err with
    | some e => (acc', handleHTTPError resp (some e), 1)
    | none =>
      match resp with
      | none => (acc', none, 1)
      | some _ =>
        let (acc'', e, n) := allPages callback rest acc'
        (acc'', e, n + 1)

/-- A `*gitea.Organization`; the adapter's contract reads only its name/login
field. -/
structure Organization where
  userName : String
  deriving DecidableEq, Repr

/-- Modelled from the spec: `validateOrganizationAPI` is code of this
repository not under `src/` (spec §3: an organization must have a non-empty
name/login; invalid objects become a structural error naming the missing
field). -/
def validateOrganizationAPI (o : Organization) : Option GiteaError :=
  if o.userName = "" then some (.validationError "organization" "name") else none

/-- The `for _, apiObj := range apiObjs { if err := validate(apiObj) ... }`
loop shared by the list accessors: the first invalid object's error, if any. -/
def firstValidationError (validate : α → Option GiteaError) : List α → Option GiteaError
  | [] => none
  | x :: xs =>
    match validate x with
    | some e => some e
    | none => firstValidationError validate xs

/-- Embeds `giteaClientImpl.ListOrgs` (src/unnamed/part_000:114-139): drive
`allPages` with the appending callback over the remote's pages, fail on a
driver error, then validate every accumulated organization, aborting on the
first invalid one. -/
def ListOrgs (pages : List (FetchResult Organization)) :
    Except GiteaError (List Organization) :=
  let (apiObjs, err, _) := allPages listCallback pages []
  match err with
  | some e => .error e
  | none =>
    match firstValidationError validateOrganizationAPI apiObjs with
    | some e => .error e
    | none => .ok apiObjs

example : ListOrgs [⟨[⟨"a"⟩], some ⟨200⟩, none⟩, ⟨[⟨"b"⟩], some ⟨200⟩, none⟩] =
    .ok [⟨"a"⟩, ⟨"b"⟩] := rfl

example : ListOrgs [⟨[], some ⟨500⟩, some "boom"⟩] = .ok [] := rfl

example : ListOrgs [⟨[⟨"a"⟩], some ⟨500⟩, some "boom"⟩] =
    .error (.providerFailure "boom") := rfl

/-- A `*gitea.Repository`; the adapter's contract reads only its full name
and its owner's login. -/
structure Repository where
  fullName : String
  owner : String
  deriving DecidableEq, Repr

/-- Modelled from the spec: `validateRepositoryAPI` is code of this
repository not under `src/` (spec §3: a repository must have a non-empty
full name and owner). -/
def validateRepositoryAPI (r : Repository) : Option GiteaError :=
  if r.fullName = "" then some (.validationError "repository" "fullName")
  else if r.owner = "" then some (.validationError "repository" "owner")
  else none

/-- A `*gitea.DeployKey`; the adapter's contract reads only its title and
key material. -/
structure DeployKey where
  title : String
  key : String
  deriving DecidableEq, Repr

/-- Modelled from the spec: `validateDeployKeyAPI` is code of this repository
not under `src/` (spec §3: a deploy key must have non-empty key material and
title). -/
def validateDeployKeyAPI (k : DeployKey) : Option GiteaError :=
  if k.title = "" then some (.validationError "deployKey" "title")
  else if k.key = "" then some (.validationError "deployKey" "key")
  else none

/-- A `*gitea.Team`: the accessors read its ID and name. -/
structure Team where
  id : Int
  name : String
  deriving DecidableEq, Repr

/-- A `*gitea.User`; opaque to the accessors, rendered by its login. -/
structure User where
  login : String
  deriving DecidableEq, Repr

/-- A `*gitea.Commit`; opaque to the accessors, rendered by its SHA. -/
structure Commit where
  sha : String
  deriving DecidableEq, Repr

/-- Embeds `validateRepositoryAPIResp` (src/unnamed/part_000:184-194): a
non-nil error is translated by `handleHTTPError` and returned; otherwise the
repository object is validated and returned. (On success the SDK returns a
non-nil object, so `apiObj` is rendered total.) -/
def validateRepositoryAPIResp (apiObj : Repository) (res : Option Response)
    (err : Option RemoteErr) : Except GiteaError Repository :=
  match err with
  | some e =>
    match handleHTTPError res (some e) with
    | some ge => .error ge
    | none => .error (.providerFailure e)
  | none =>
    match validateRepositoryAPI apiObj with
    | some ve => .error ve
    | none => .ok apiObj

/-- Embeds `validateRepositoryObjects` (src/unnamed/part_000:216-224): return
the list unless some repository is invalid, in which case the first invalid
one's error aborts the call. -/
def validateRepositoryObjects (apiObjs : List Repository) :
    Except GiteaError (List Repository) :=
  match firstValidationError validateRepositoryAPI apiObjs with
  | some e => .error e
  | none => .ok apiObjs

/-- Embeds `giteaClientImpl.ListOrgTeams` (src/unnamed/part_000:159-177):
like `ListOrgs` but over teams and with no validation pass. -/
def ListOrgTeams (pages : List (FetchResult Team)) :
    Except GiteaError (List Team) :=
  let (apiObjs, err, _) := allPages listCallback pages []
  match err with
  | some e => .error e
  | none => .ok apiObjs

/-- The `for _, team := range teams` loop of `ListOrgTeamMembers`
(src/unnamed/part_000:147-156): scan for the first team whose name matches;
on a match call the remote member listing (given as `listTeamMembers`,
indexed by team ID), wrapping its error; with no match return the
`ErrNotFound` sentinel. -/
def teamScan (listTeamMembers : Int → List User × Option Response × Option RemoteErr)
    (teamName : String) : List Team → Except GiteaError (List User)
  | [] => .error .errNotFound
  | team :: rest =>
    if team.name = teamName then
      let (users, _, err) := listTeamMembers team.id
      match err with
      | some e =>
        .error (.wrap ("failed to list team " ++ teamName ++ " members") (.remote e))
      | none => .ok users
    else teamScan listTeamMembers teamName rest

/-- Embeds `giteaClientImpl.ListOrgTeamMembers` (src/unnamed/part_000:141-157):
list the organization's teams (remote team pages given as `teamPages`), then
scan them by name. -/
def ListOrgTeamMembers (teamPages : List (FetchResult Team))
    (listTeamMembers : Int → List User × Option Response × Option RemoteErr)
    (teamName : String) : Except GiteaError (List User) :=
  match ListOrgTeams teamPages with
  | .error e => .error e
  | .ok teams => teamScan listTeamMembers teamName teams

/-- Embeds `giteaClientImpl.ListOrgRepos` (src/unnamed/part_000:196-214):
paginate, then `validateRepositoryObjects`. -/
def ListOrgRepos (pages : List (FetchResult Repository)) :
    Except GiteaError (List Repository) :=
  let (apiObjs, err, _) := allPages listCallback pages []
  match err with
  | some e => .error e
  | none => validateRepositoryObjects apiObjs

/-- Embeds `giteaClientImpl.ListUserRepos` (src/unnamed/part_000:226-244):
same shape as `ListOrgRepos` against the user-repos endpoint. -/
def ListUserRepos (pages : List (FetchResult Repository)) :
    Except GiteaError (List Repository) :=
  let (apiObjs, err, _) := allPages listCallback pages []
  match err with
  | some e => .error e
  | none => validateRepositoryObjects apiObjs

/-- A `gitea.CreateRepoOption` request body; opaque to the adapter, which
forwards it unchanged. -/
structure CreateRepoOption where
  name : String
  deriving DecidableEq, Repr

/-- Embeds `giteaClientImpl.CreateRepo` (src/unnamed/part_000:246-253): a
non-empty `orgName` routes to the organization-scoped creation endpoint
(`CreateOrgRepo`), an empty one to the personal-account endpoint
(`CreateRepo`); both results go through `validateRepositoryAPIResp`. The two
remote endpoints are passed in as `createOrgRepo` and `createUserRepo`. -/
def CreateRepo
    (createOrgRepo : String → CreateRepoOption → Repository × Option Response × Option RemoteErr)
    (createUserRepo : CreateRepoOption → Repository × Option Response × Option RemoteErr)
    (orgName : String) (req : CreateRepoOption) : Except GiteaError Repository :=
  if orgName ≠ "" then
    let (apiObj, res, err) := createOrgRepo orgName req
    validateRepositoryAPIResp apiObj res err
  else
    let (apiObj, res, err) := createUserRepo req
    validateRepositoryAPIResp apiObj res err

/-- Embeds `giteaClientImpl.DeleteRepo` (src/unnamed/part_000:260-267): when
destructive actions are not allowed, fail at once with the wrapped
`ErrDestructiveCallDisallowed` sentinel; otherwise call the remote delete
endpoint and translate its outcome. The second component counts the calls
made to the remote transport. -/
def DeleteRepo (destructiveActions : Bool)
    (transport : String → String → Option Response × Option RemoteErr)
    (owner repo : String) : Option GiteaError × Nat :=
  if !destructiveActions then
    (some (.wrap "cannot delete repository" .errDestructiveCallDisallowed), 0)
  else
    let (res, err) := transport owner repo
    (handleHTTPError res err, 1)

/-- Embeds `giteaClientImpl.ListKeys` (src/unnamed/part_000:269-294):
paginate, then validate every accumulated deploy key, aborting on the first
invalid one. -/
def ListKeys (pages : List (FetchResult DeployKey)) :
    Except GiteaError (List DeployKey) :=
  let (apiObjs, err, _) := allPages listCallback pages []
  match err with
  | some e => .error e
  | none =>
    match firstValidationError validateDeployKeyAPI apiObjs with
    | some e => .error e
    | none => .ok apiObjs

/-- Embeds `giteaClientImpl.ListCommitsPage` (src/unnamed/part_000:296-310):
a single remote call whose response metadata is discarded and whose error is
returned RAW — `handleHTTPError` is never applied, despite the interface doc
comment promising HTTP error wrapping. The remote call's result is given as
`fetch`. -/
def ListCommitsPage (fetch : List Commit × Option Response × Option RemoteErr) :
    Except GiteaError (List Commit) :=
  let (apiObjs, _, listErr) := fetch
  match listErr with
  | some e => .error (.remote e)
  | none => .ok apiObjs

/-- Embeds `giteaClientImpl.GetRepoTeams` (src/unnamed/part_000:338-344): the
body calls `c.GetRepoTeams(orgName, repo)` — the method itself — with the
same arguments, so the recursion never reaches the remote endpoint. Rendered
with explicit fuel: `none` means the call has not returned within `fuel`
nested calls. -/
def GetRepoTeams (fuel : Nat) (orgName repo : String) :
    Option (Except GiteaError (List Team)) :=
  match fuel with
  | 0 => none
  | n + 1 =>
    match GetRepoTeams n orgName repo with
    | none => none
    | some (.error e) => some (.error e)
    | some (.ok apiObjs) => some (.ok apiObjs)

/-- A `*gitea.PullRequest` API object; opaque to the accessors, rendered by
its index number. -/
structure PullRequest where
  number : Int
  deriving DecidableEq, Repr

/-- `newPullRequest` wraps an API pull-request object into the
`gitprovider.PullRequest` handed to callers; the wrapping itself is opaque
bookkeeping (it stores the object and the client context), rendered as the
object it carries. -/
def newPullRequest (pr : PullRequest) : PullRequest := pr

/-- The `gitea.CreatePullRequestOption` request body sent by
`PullRequestClient.Create`. The Go struct also carries head/base branch and
body fields; the source initializes only `Title`, leaving the rest at Go's
zero value `""`. -/
structure CreatePullRequestOption where
  title : String
  head : String
  base : String
  body : String
  deriving DecidableEq, Repr

/-- Embeds `PullRequestClient.List`
(src/gitea/client_repository_pullrequest.go:36-51): one remote call (no
pagination), error returned RAW without `handleHTTPError`, results wrapped
with `newPullRequest`. -/
def PullRequestClientList (fetch : List PullRequest × Option Response × Option RemoteErr) :
    Except GiteaError (List PullRequest) :=
  let (prs, _, err) := fetch
  match err with
  | some e => .error (.remote e)
  | none => .ok (prs.map newPullRequest)

/-- The request body `PullRequestClient.Create` builds
(src/gitea/client_repository_pullrequest.go:56-58):
`gitea.CreatePullRequestOption{ Title: title }` — only the title is copied
in; the branch, base-branch and description arguments are never read, so the
remaining fields stay at their zero value. -/
def createPullRequestOption (title branch baseBranch description : String) :
    CreatePullRequestOption :=
  { title := title, head := "", base := "", body := "" }

/-- Embeds `PullRequestClient.Create`
(src/gitea/client_repository_pullrequest.go:54-66): build the option struct
from the title alone, send it to the remote creation endpoint, return its
error raw or wrap the created object. -/
def PullRequestClientCreate
    (createPullRequest : CreatePullRequestOption → PullRequest × Option Response × Option RemoteErr)
    (title branch baseBranch description : String) : Except GiteaError PullRequest :=
  let prOpts := createPullRequestOption title branch baseBranch description
  let (pr, _, err) := createPullRequest prOpts
  match err with
  | some e => .error (.remote e)
  | none => .ok (newPullRequest pr)

/-! ## Helper lemmas -/

/-- Driving `listCallback` over a clean remote — every page non-empty,
error-free and carrying response metadata — appends the concatenation of the
pages to the accumulator, reports no error, and performs one fetch per page
plus the final empty fetch. -/
lemma allPages_listCallback_clean {α : Type} (pages : List (FetchResult α))
    (h : ∀ fr ∈ pages, fr.objs ≠ [] ∧ fr.err = none ∧ fr.resp.isSome) :
    ∀ acc : List α, allPages listCallback pages acc =
      (acc ++ (pages.map FetchResult.objs).flatten, none, pages.length + 1) := by
  induction pages with
  | nil => intro acc; simp [allPages, listCallback]
  | cons fr rest ih =>
    intro acc
    obtain ⟨hobjs, herr, hresp⟩ := h fr (List.mem_cons_self fr rest)
    obtain ⟨r, hr⟩ := Option.isSome_iff_exists.mp hresp
    have hlen : fr.objs.length > 0 := List.length_pos.mpr hobjs
    simp only [allPages, listCallback, if_pos hlen, herr, hr]
    rw [ih (fun x hx => h x (List.mem_cons_of_mem fr hx)) (acc ++ fr.objs)]
    simp [List.append_assoc]

/-- If the validation scan finds an error, the list splits at the FIRST
invalid object: everything before it validates cleanly and the error is that
object's. -/
lemma firstValidationError_eq_some {α : Type} (validate : α → Option GiteaError) :
    ∀ (l : List α) (e : GiteaError), firstValidationError validate l = some e →
      ∃ pre bad post, l = pre ++ bad :: post ∧ (∀ x ∈ pre, validate x = none) ∧
        validate bad = some e := by
  intro l
  induction l with
  | nil => intro e h; simp [firstValidationError] at h
  | cons x xs ih =>
    intro e h
    cases hx : validate x with
    | some e0 =>
      simp only [firstValidationError, hx, Option.some.injEq] at h
      subst h
      exact ⟨[], x, xs, rfl, by simp, hx⟩
    | none =>
      simp only [firstValidationError, hx] at h
      obtain ⟨pre, bad, post, heq, hpre, hbad⟩ := ih e h
      refine ⟨x :: pre, bad, post, by simp [heq], ?_, hbad⟩
      intro y hy
      rcases List.mem_cons.mp hy with hy' | hy'
      · exact hy' ▸ hx
      · exact hpre y hy'

/-- If the validation scan passes, every object in the list validates. -/
lemma firstValidationError_eq_none {α : Type} (validate : α → Option GiteaError) :
    ∀ l : List α, firstValidationError validate l = none →
      ∀ x ∈ l, validate x = none := by
  intro l
  induction l with
  | nil => intro _ x hx; cases hx
  | cons y ys ih =>
    intro h x hx
    cases hy : validate y with
    | some e0 => simp [firstValidationError, hy] at h
    | none =>
      simp only [firstValidationError, hy] at h
      rcases List.mem_cons.mp hx with hx' | hx'
      · exact hx' ▸ hy
      · exact ih h x hx'

/-- Scanning a team list in which no name matches reaches the fall-through
`ErrNotFound` return. -/
lemma teamScan_no_match (ltm : Int → List User × Option Response × Option RemoteErr)
    (teamName : String) :
    ∀ teams : List Team, (∀ t ∈ teams, t.name ≠ teamName) →
      teamScan ltm teamName teams = .error .errNotFound := by
  intro teams
  induction teams with
  | nil => intro _; rfl
  | cons team rest ih =>
    intro h
    have hne : team.name ≠ teamName := h team (List.mem_cons_self team rest)
    simp only [teamScan, if_neg hne]
    exact ih fun t ht => h t (List.mem_cons_of_mem team ht)

/-- Scanning stops at the first matching team and returns its (successfully
fetched) member list. -/
lemma teamScan_found (ltm : Int → List User × Option Response × Option RemoteErr)
    (teamName : String) (team : Team) (users : List User) (resp : Option Response)
    (hmatch : team.name = teamName) (hfetch : ltm team.id = (users, resp, none)) :
    ∀ pre : List Team, (∀ t ∈ pre, t.name ≠ teamName) → ∀ post : List Team,
      teamScan ltm teamName (pre ++ team :: post) = .ok users := by
  intro pre
  induction pre with
  | nil =>
    intro _ post
    simp only [List.nil_append, teamScan, if_pos hmatch, hfetch]
  | cons p rest ih =>
    intro h post
    have hne : p.name ≠ teamName := h p (List.mem_cons_self p rest)
    simp only [List.cons_append, teamScan, if_neg hne]
    exact ih (fun t ht => h t (List.mem_cons_of_mem p ht)) post

/-! ## Theorems -/

/-- C1: over any finite remote page sequence whose pages are all non-empty,
error-free and carry response metadata (the fetch after the last returns the
empty page), the driver as invoked by every `List*` accessor terminates —
performing exactly one fetch per page plus the final empty fetch — with the
caller's accumulator equal to the concatenation of the pages in fetch
order. -/
theorem allPages_accumulates_all_pages {α : Type} (pages : List (FetchResult α))
    (h : ∀ fr ∈ pages, fr.objs ≠ [] ∧ fr.err = none ∧ fr.resp.isSome) :
    allPages listCallback pages ([] : List α) =
      ((pages.map FetchResult.objs).flatten, none, pages.length + 1) := by
  simpa using allPages_listCallback_clean pages h []

/-- Witness for `allPages_accumulates_all_pages`: two concrete non-empty
pages concatenate in fetch order, with three fetches performed. -/
theorem allPages_accumulates_all_pages_witness :
    allPages listCallback
        [⟨[⟨"a"⟩], some ⟨200⟩, none⟩, ⟨[⟨"b"⟩, ⟨"c"⟩], some ⟨200⟩, none⟩]
        ([] : List Organization) =
      ([⟨"a"⟩, ⟨"b"⟩, ⟨"c"⟩], none, 3) :=
  allPages_accumulates_all_pages _ (by decide)

/-- C4: for each list accessor over contracted object kinds (organizations
via `ListOrgs`, repositories via `ListOrgRepos`/`ListUserRepos`, deploy keys
via `ListKeys`), if the accumulated list contains an invalid object the call
returns the validation error of the first such object and no list — spelled
out for organizations: the accumulator splits at a first invalid object with
everything before it valid — and a returned (`ok`) list never contains an
invalid object. -/
theorem list_accessors_validation_atomic :
    (∀ (pages : List (FetchResult Organization)) (acc : List Organization)
        (n : Nat) (e : GiteaError),
      allPages listCallback pages [] = (acc, none, n) →
      firstValidationError validateOrganizationAPI acc = some e →
      ListOrgs pages = .error e ∧
        ∃ pre bad post, acc = pre ++ bad :: post ∧
          (∀ x ∈ pre, validateOrganizationAPI x = none) ∧
          validateOrganizationAPI bad = some e) ∧
    (∀ (pages : List (FetchResult Organization)) (objs : List Organization),
      ListOrgs pages = .ok objs → ∀ o ∈ objs, validateOrganizationAPI o = none) ∧
    (∀ (pages : List (FetchResult Repository)) (acc : List Repository)
        (n : Nat) (e : GiteaError),
      allPages listCallback pages [] = (acc, none, n) →
      firstValidationError validateRepositoryAPI acc = some e →
      ListOrgRepos pages = .error e ∧ ListUserRepos pages = .error e) ∧
    (∀ (pages : List (FetchResult Repository)) (objs : List Repository),
      ListOrgRepos pages = .ok objs ∨ ListUserRepos pages = .ok objs →
      ∀ r ∈ objs, validateRepositoryAPI r = none) ∧
    (∀ (pages : List (FetchResult DeployKey)) (acc : List DeployKey)
        (n : Nat) (e : GiteaError),
      allPages listCallback pages [] = (acc, none, n) →
      firstValidationError validateDeployKeyAPI acc = some e →
      ListKeys pages = .error e) ∧
    (∀ (pages : List (FetchResult DeployKey)) (objs : List DeployKey),
      ListKeys pages = .ok objs → ∀ k ∈ objs, validateDeployKeyAPI k = none) := by
  refine ⟨?_, ?_, ?_, ?_, ?_, ?_⟩
  · intro pages acc n e hall hfv
    exact ⟨by simp [ListOrgs, hall, hfv], firstValidationError_eq_some _ acc e hfv⟩
  · intro pages objs h o ho
    rcases hall : allPages listCallback pages [] with ⟨acc, err, n⟩
    cases err with
    | some e => simp [ListOrgs, hall] at h
    | none =>
      cases hfv : firstValidationError validateOrganizationAPI acc with
      | some e => simp [ListOrgs, hall, hfv] at h
      | none =>
        simp [ListOrgs, hall, hfv] at h
        subst h
        exact firstValidationError_eq_none _ acc hfv o ho
  · intro pages acc n e hall hfv
    constructor
    · simp [ListOrgRepos, validateRepositoryObjects, hall, hfv]
    · simp [ListUserRepos, validateRepositoryObjects, hall, hfv]
  · intro pages objs h r hr
    rcases hall : allPages listCallback pages [] with ⟨acc, err, n⟩
    cases err with
    | some e =>
      rcases h with h | h <;>
        simp [ListOrgRepos, ListUserRepos, hall] at h
    | none =>
      cases hfv : firstValidationError validateRepositoryAPI acc with
      | some e =>
        rcases h with h | h <;>
          simp [ListOrgRepos, ListUserRepos, validateRepositoryObjects, hall, hfv] at h
      | none =>
        have hacc : acc = objs := by
          rcases h with h | h <;>
            simpa [ListOrgRepos, ListUserRepos, validateRepositoryObjects, hall, hfv] using h
        subst hacc
        exact firstValidationError_eq_none _ acc hfv r hr
  · intro pages acc n e hall hfv
    simp [ListKeys, hall, hfv]
  · intro pages objs h k hk
    rcases hall : allPages listCallback pages [] with ⟨acc, err, n⟩
    cases err with
    | some e => simp [ListKeys, hall] at h
    | none =>
      cases hfv : firstValidationError validateDeployKeyAPI acc with
      | some e => simp [ListKeys, hall, hfv] at h
      | none =>
        simp [ListKeys, hall, hfv] at h
        subst h
        exact firstValidationError_eq_none _ acc hfv k hk

/-- Witness for `list_accessors_validation_atomic`: a single page holding one
valid and one name-less organization makes `ListOrgs` fail with the
validation error for the invalid one, returning no list. -/
theorem list_accessors_validation_atomic_witness :
    ListOrgs [⟨[⟨"good"⟩, ⟨""⟩], some ⟨200⟩, none⟩] =
      .error (.validationError "organization" "name") :=
  (list_accessors_validation_atomic.1 [⟨[⟨"good"⟩, ⟨""⟩], some ⟨200⟩, none⟩]
    [⟨"good"⟩, ⟨""⟩] 2 (.validationError "organization" "name") rfl rfl).1

/-- C7: whenever the team listing succeeds, `ListOrgTeamMembers` scans the
teams linearly by name: with no matching team (the empty list included) it
returns the `ErrNotFound` sentinel, and with a matching team — first match,
everything before it non-matching — it returns that team's (successfully
fetched) member list. -/
theorem ListOrgTeamMembers_linear_scan
    (teamPages : List (FetchResult Team))
    (ltm : Int → List User × Option Response × Option RemoteErr)
    (teamName : String) (teams : List Team)
    (hok : ListOrgTeams teamPages = .ok teams) :
    ((∀ t ∈ teams, t.name ≠ teamName) →
      ListOrgTeamMembers teamPages ltm teamName = .error .errNotFound) ∧
    (∀ (pre : List Team) (team : Team) (post : List Team) (users : List User)
        (resp : Option Response),
      teams = pre ++ team :: post → (∀ t ∈ pre, t.name ≠ teamName) →
      team.name = teamName → ltm team.id = (users, resp, none) →
      ListOrgTeamMembers teamPages ltm teamName = .ok users) := by
  have hunfold : ListOrgTeamMembers teamPages ltm teamName =
      teamScan ltm teamName teams := by
    simp [ListOrgTeamMembers, hok]
  constructor
  · intro h
    rw [hunfold]
    exact teamScan_no_match ltm teamName teams h
  · intro pre team post users resp heq hpre hmatch hfetch
    rw [hunfold, heq]
    exact teamScan_found ltm teamName team users resp hmatch hfetch pre hpre post

/-- Witness for `ListOrgTeamMembers_linear_scan`: teams {"A", "B"} and a
search for "C" return the `ErrNotFound` sentinel. -/
theorem ListOrgTeamMembers_linear_scan_witness :
    ListOrgTeamMembers [⟨[⟨1, "A"⟩, ⟨2, "B"⟩], some ⟨200⟩, none⟩]
        (fun _ => ([], none, none)) "C" = .error .errNotFound :=
  (ListOrgTeamMembers_linear_scan [⟨[⟨1, "A"⟩, ⟨2, "B"⟩], some ⟨200⟩, none⟩]
    (fun _ => ([], none, none)) "C" [⟨1, "A"⟩, ⟨2, "B"⟩] rfl).1 (by decide)

/-- C3: for every response-metadata object whose HTTP status is 404 and every
non-nil underlying error, `handleHTTPError` returns the identity-comparable
`ErrNotFound` sentinel, regardless of the error's message text. -/
theorem handleHTTPError_404_is_not_found (r : Response) (msg : RemoteErr)
    (h : r.statusCode = 404) :
    handleHTTPError (some r) (some msg) = some GiteaError.errNotFound := by
  simp [handleHTTPError, h]

/-- Witness for `handleHTTPError_404_is_not_found` at status 404 and a
concrete error text. -/
theorem handleHTTPError_404_is_not_found_witness :
    handleHTTPError (some ⟨404⟩) (some "no such organization") =
      some GiteaError.errNotFound :=
  handleHTTPError_404_is_not_found ⟨404⟩ "no such organization" rfl

/-- C5: with destructive actions disallowed, `DeleteRepo` performs zero
transport calls and returns an error whose kind (via `errors.Is` unwrapping)
is the `ErrDestructiveCallDisallowed` sentinel — for every transport, owner
and repository name. -/
theorem DeleteRepo_disallowed_no_transport_calls
    (transport : String → String → Option Response × Option RemoteErr)
    (owner repo : String) :
    DeleteRepo false transport owner repo =
      (some (.wrap "cannot delete repository" .errDestructiveCallDisallowed), 0) ∧
    errorIs (.wrap "cannot delete repository" .errDestructiveCallDisallowed)
      GiteaError.errDestructiveCallDisallowed = true :=
  ⟨rfl, rfl⟩

/-- C9 (code bug): `GetRepoTeams` recurses into itself with unchanged
arguments, so no amount of fuel makes any call return — it never terminates
for any organization and repository name, contradicting its own doc comment
(a wrapper for "GET /repos/{owner}/{repo}/teams"). -/
theorem GetRepoTeams_never_terminates (fuel : Nat) (orgName repo : String) :
    GetRepoTeams fuel orgName repo = none := by
  induction fuel with
  | zero => rfl
  | succ n ih => simp [GetRepoTeams, ih]

/-- C10: the pull-request creation request is a function of the title alone:
two `PullRequestClient.Create` calls agreeing on the title but with arbitrary
branch, base-branch and description arguments build the identical request
option struct and produce the identical outcome against any remote
endpoint. -/
theorem PullRequestClientCreate_depends_only_on_title
    (ep : CreatePullRequestOption → PullRequest × Option Response × Option RemoteErr)
    (title b1 bb1 d1 b2 bb2 d2 : String) :
    createPullRequestOption title b1 bb1 d1 = createPullRequestOption title b2 bb2 d2 ∧
    PullRequestClientCreate ep title b1 bb1 d1 = PullRequestClientCreate ep title b2 bb2 d2 :=
  ⟨rfl, rfl⟩

/-- C2 (code bug): a page sequence whose first fetch returns zero items
together with a non-nil error. The callback's empty-page branch hands
`(nil, nil)` to the driver, so `ListOrgs` reports success with an empty list;
the translated form of the fetch's error (which the claim requires the
caller to receive) is a provider failure that is silently dropped. -/
theorem ListOrgs_suppresses_error_on_empty_page :
    ListOrgs [⟨[], some ⟨500⟩, some "remote failure"⟩] = .ok [] ∧
    handleHTTPError (some ⟨500⟩) (some "remote failure") =
      some (.providerFailure "remote failure") :=
  ⟨rfl, rfl⟩

/-- C8 (code bug): `ListCommitsPage` receiving a 404 response and a non-nil
error surfaces the raw SDK error untranslated — not the `ErrNotFound`
sentinel that `handleHTTPError` would produce for the same response — so not
every accessor routes remote errors through the translator. -/
theorem ListCommitsPage_returns_untranslated_error :
    ListCommitsPage ([], some ⟨404⟩, some "404 Not Found") =
      .error (.remote "404 Not Found") ∧
    GiteaError.remote "404 Not Found" ≠ GiteaError.errNotFound ∧
    handleHTTPError (some ⟨404⟩) (some "404 Not Found") =
      some GiteaError.errNotFound :=
  ⟨rfl, by decide, rfl⟩

/-- C6: `CreateRepo` routes an empty organization name to the
personal-account creation endpoint and a non-empty one to the
organization-scoped endpoint, and in both cases the returned result is the
endpoint's triple passed through the one shared
`validateRepositoryAPIResp` error-translation/validation path. (Equality for
every value of the other endpoint shows that endpoint is not consulted.) -/
theorem CreateRepo_routes_by_org_name
    (createOrgRepo : String → CreateRepoOption → Repository × Option Response × Option RemoteErr)
    (createUserRepo : CreateRepoOption → Repository × Option Response × Option RemoteErr)
    (orgName : String) (req : CreateRepoOption) :
    (orgName = "" →
      CreateRepo createOrgRepo createUserRepo orgName req =
        validateRepositoryAPIResp (createUserRepo req).1 (createUserRepo req).2.1
          (createUserRepo req).2.2) ∧
    (orgName ≠ "" →
      CreateRepo createOrgRepo createUserRepo orgName req =
        validateRepositoryAPIResp (createOrgRepo orgName req).1
          (createOrgRepo orgName req).2.1 (createOrgRepo orgName req).2.2) := by
  constructor
  · intro h
    simp [CreateRepo, h]
  · intro h
    simp [CreateRepo, h]

/-- Witness for `CreateRepo_routes_by_org_name`: with concrete endpoints, the
empty organization name takes the personal-account endpoint and a non-empty
one the organization endpoint. -/
theorem CreateRepo_routes_by_org_name_witness :
    CreateRepo (fun _ _ => (⟨"org/tool", "org"⟩, some ⟨201⟩, none))
        (fun _ => (⟨"user/tool", "user"⟩, some ⟨201⟩, none)) "" ⟨"tool"⟩ =
      validateRepositoryAPIResp ⟨"user/tool", "user"⟩ (some ⟨201⟩) none ∧
    CreateRepo (fun _ _ => (⟨"org/tool", "org"⟩, some ⟨201⟩, none))
        (fun _ => (⟨"user/tool", "user"⟩, some ⟨201⟩, none)) "org" ⟨"tool"⟩ =
      validateRepositoryAPIResp ⟨"org/tool", "org"⟩ (some ⟨201⟩) none :=
  ⟨(CreateRepo_routes_by_org_name _ _ "" ⟨"tool"⟩).1 rfl,
   (CreateRepo_routes_by_org_name _ _ "org" ⟨"tool"⟩).2 (by decide)⟩

end Gitea
